import Mathlib

/-!
Verification development for the LangChain/Chainlit chatbot application
(`src/langchain_chainlit.py`).

The Python module is shallowly embedded: the pieces of state that the code
mutates (conversation history, the set of temporary files on disk, the list
of user-visible messages sent, warning/error log records) are threaded
explicitly, and the external libraries (document loaders, text splitter,
FAISS index construction, the agent event stream) are oracles supplied in an
environment record.  Exceptions are modelled with `Except`.

Only warning- and error-level log calls are tracked in the log model; the
many debug/info log lines of the source are irrelevant to the stated
properties (except the info-level lines for agent decisions and final
answers, which are also recorded).
-/

/-- Role tags used for the conversation-history pairs `("human", ...)`,
`("ai", ...)` in `ChatbotService.chat_history`. -/
inductive Role where
  | human
  | ai
deriving DecidableEq, Repr

/-- A loaded document (the payload of a `langchain_core.documents.Document`);
its internals are irrelevant here, a string suffices. -/
abbrev Document := String

/-- An opaque retriever as returned by `vectorstore.as_retriever()`; we keep
the documents from which `FAISS.from_documents` built the vector store. -/
structure Retriever where
  docs : List Document
deriving DecidableEq, Repr

/-- The file system as visible to `tempfile.NamedTemporaryFile(delete=False)`
and `os.unlink`: the set (list) of existing paths plus a counter that makes
freshly generated temporary names unique. -/
structure FS where
  files : List String
  counter : Nat
deriving DecidableEq, Repr

/-- The path that `tempfile.NamedTemporaryFile(delete=False, suffix=s)`
produces for the `n`-th temporary file of the run. -/
def tmpName (n : Nat) (suffix : String) : String :=
  "/tmp/cltmp" ++ toString n ++ suffix

/-- Create a temporary file: the fresh path appears on disk and the counter
advances. -/
def FS.mkTemp (fs : FS) (suffix : String) : String × FS :=
  let p := tmpName fs.counter suffix
  (p, { files := p :: fs.files, counter := fs.counter + 1 })

/-- `os.unlink path` guarded by `os.path.exists(path)`. -/
def FS.unlink (fs : FS) (p : String) : FS :=
  if p ∈ fs.files then { fs with files := fs.files.filter (fun q => q ≠ p) }
  else fs

/-- An uploaded `cl.File`: a name, an optional on-disk path and optional
in-memory byte content (bytes modelled as a string). -/
structure UploadFile where
  name : String
  path : Option String
  content : Option String
deriving DecidableEq, Repr

/-- The three loader classes the source selects among by filename suffix. -/
inductive LoaderKind where
  | pdf
  | csv
  | text
deriving DecidableEq, Repr

/-- Loader selection of `_create_temp_retriever_from_files`:
`.pdf` → `PyPDFLoader`, `.csv` → `CSVLoader`, otherwise `TextLoader`. -/
def loaderKindFor (name : String) : LoaderKind :=
  if name.endsWith ".pdf" then LoaderKind.pdf
  else if name.endsWith ".csv" then LoaderKind.csv
  else LoaderKind.text

/-- The suffix `os.path.splitext(file.name)[1]` passed to
`NamedTemporaryFile`; the last dot-separated component with its dot. -/
def extSuffix (name : String) : String :=
  let parts := name.splitOn "."
  if parts.length ≤ 1 then "" else "." ++ (parts.getLast?.getD "")

/-- User-visible messages (`cl.Message(...).send()` contents, plus the empty
placeholder message and its update). -/
inductive Msg where
  | indexing (n : Nat)
  | usingTool (tool : String)
  | toolStart (tool : String)
  | toolEnd (tool : String)
  | skipFile (loader : LoaderKind) (name : String) (err : String)
  | placeholder
  | answer (text : String)
  | apology
  | error (err : String)
deriving DecidableEq, Repr

/-- The rendered `content=` string of each message, as in the source. -/
def msgText : Msg → String
  | Msg.indexing n => "正在為您上傳的 " ++ toString n ++ " 個檔案建立索引..."
  | Msg.usingTool t => "&nbsp;&nbsp;➤ 正在使用工具: `" ++ t ++ "` 來查找資料。"
  | Msg.toolStart t => "&nbsp;&nbsp;⟳ 開始使用工具: `" ++ t ++ "` 來查找資料。"
  | Msg.toolEnd t => "&nbsp;&nbsp;✓ 工具 `" ++ t ++ "` 執行完畢。"
  | Msg.skipFile _ name err =>
      "處理檔案 `" ++ name ++ "` 時出錯，已略過。原因: " ++ err
  | Msg.placeholder => ""
  | Msg.answer s => s
  | Msg.apology => "抱歉，我無法生成回答。"
  | Msg.error e => "處理您的問題時發生錯誤: " ++ e

/-- Tracked log records (warning/error level calls, plus the info lines of
the event loop). -/
inductive LogMsg where
  | warnUnknownEventStructure
  | warnFileNoPathNoContent (name : String)
  | errorFileLoad (loader : LoaderKind) (name : String) (err : String)
  | warnFileRead (path : String) (err : String)
  | warnNoKnowledgeBase (err : String)
  | infoAgentAction (tool : String)
  | infoFinalAnswer (answer : String)
  | errorAgentRun (err : String)
deriving DecidableEq, Repr

/-- Oracles for the external document machinery used by
`_create_temp_retriever_from_files`: per-file loader results, the text
splitter, and FAISS index construction (each may raise, modelled by
`Except`). -/
structure BuilderEnv where
  load : LoaderKind → UploadFile → Except String (List Document)
  split : List Document → List Document
  buildIndex : List Document → Except String Retriever

/-- Loop state of the `for file in files` loop of
`_create_temp_retriever_from_files`: accumulated `documents`,
`temp_files_to_delete`, the file system, messages sent, log records. -/
structure BState where
  docs : List Document
  temps : List String
  fs : FS
  msgs : List Msg
  log : List LogMsg
deriving Repr

/-- `file.path` is truthy, or `file.content is not None`. -/
def fileHasSource (f : UploadFile) : Bool :=
  f.path.isSome || f.content.isSome

/-- The loader result for one file (the oracle is keyed by the selected
loader class and the file itself, whose content the loader reads). -/
def loadResult (env : BuilderEnv) (f : UploadFile) : Except String (List Document) :=
  env.load (loaderKindFor f.name) f

/-- One iteration of the file loop of `_create_temp_retriever_from_files`. -/
def builderStep (env : BuilderEnv) (st : BState) (f : UploadFile) : BState :=
  let resolved : Option String × BState :=
    match f.path with
    | some p => (some p, st)
    | none =>
      match f.content with
      | some _ =>
        let (p, fs) := st.fs.mkTemp (extSuffix f.name)
        (some p, { st with fs := fs, temps := st.temps ++ [p] })
      | none => (none, st)
  match resolved with
  | (none, st) =>
      { st with log := st.log ++ [LogMsg.warnFileNoPathNoContent f.name] }
  | (some _, st) =>
      match loadResult env f with
      | Except.ok ds => { st with docs := st.docs ++ ds }
      | Except.error e =>
          { st with
            log := st.log ++ [LogMsg.errorFileLoad (loaderKindFor f.name) f.name e],
            msgs := st.msgs ++ [Msg.skipFile (loaderKindFor f.name) f.name e] }

/-- The whole file loop. -/
def buildLoop (env : BuilderEnv) (files : List UploadFile) (st : BState) : BState :=
  match files with
  | [] => st
  | f :: rest => buildLoop env rest (builderStep env st f)

/-- The `finally:` block: `for path in temp_files_to_delete: if exists: unlink`. -/
def unlinkAll (temps : List String) (fs : FS) : FS :=
  match temps with
  | [] => fs
  | p :: rest => unlinkAll rest (fs.unlink p)

/-- Failure modes of `_create_temp_retriever_from_files`: the `ValueError`
raised on zero loaded documents, or an error propagating from the splitter /
FAISS library calls. -/
inductive BuildError where
  | emptyContent
  | libraryError (err : String)
deriving DecidableEq, Repr

/-- The `str(e)` of a builder exception, as interpolated into the error
message shown by the caller. -/
def buildErrText : BuildError → String
  | BuildError.emptyContent => "無法從上傳的檔案中讀取任何可處理的內容。"
  | BuildError.libraryError e => e

/-- Outcome of one `_create_temp_retriever_from_files` call. -/
structure BuildOutcome where
  res : Except BuildError Retriever
  fs : FS
  msgs : List Msg
  log : List LogMsg
deriving Repr

/-- `_create_temp_retriever_from_files(files, embeddings)`: run the file
loop, raise `ValueError` when no document was loaded, otherwise split and
build the index; in every case the `finally:` block removes the recorded
temporary files before the call returns. -/
def createTempRetriever (env : BuilderEnv) (files : List UploadFile) (fs0 : FS) :
    BuildOutcome :=
  let st := buildLoop env files ⟨[], [], fs0, [], []⟩
  let res : Except BuildError Retriever :=
    if st.docs = [] then Except.error BuildError.emptyContent
    else
      match env.buildIndex (env.split st.docs) with
      | Except.ok r => Except.ok r
      | Except.error e => Except.error (BuildError.libraryError e)
  { res := res, fs := unlinkAll st.temps st.fs, msgs := st.msgs, log := st.log }

/-- The documents contributed by the files whose loader succeeded, in file
order (those with neither path nor content contribute nothing, as do files
whose loader raised). -/
def successfulDocs (env : BuilderEnv) : List UploadFile → List Document
  | [] => []
  | f :: rest =>
      (if fileHasSource f then
        match loadResult env f with
        | Except.ok ds => ds
        | Except.error _ => []
      else []) ++ successfulDocs env rest

/-!
Event-stream classifier (`ChatbotService.process_message`, event loop,
lines 99-154 of the source).  Events of `astream_events` are dicts; the
fields the loop touches are modelled explicitly.
-/

/-- The value found under `data["action"]` — either an actual
`AgentAction(tool, tool_input)` instance or something else (the
`isinstance` check then fails). -/
inductive ActionVal where
  | agentAction (tool : String) (toolInput : String)
  | notAction
deriving DecidableEq, Repr

/-- The value found under `data["output"]` — either an `AgentFinish` with a
`return_values` dict or something else. -/
inductive OutputVal where
  | agentFinish (returnValues : List (String × String))
  | notFinish
deriving DecidableEq, Repr

/-- The value found under `data["chunk"]`: an object with a `.content`
attribute, or any other value whose `str(...)` rendering is kept. -/
inductive ChunkVal where
  | withContent (content : String)
  | plain (repr : String)
deriving DecidableEq, Repr

/-- `chunk.content if hasattr(chunk, "content") else str(chunk)`, with the
dict default `data.get("chunk", \x7b\x7d)` rendering as "\x7b\x7d". -/
def chunkContent : Option ChunkVal → String
  | none => "\x7b\x7d"
  | some (ChunkVal.withContent c) => c
  | some (ChunkVal.plain r) => r

/-- The `data` dict of an event (fields the loop reads; `none` = absent). -/
structure EventData where
  action : Option ActionVal := none
  chunk : Option ChunkVal := none
  output : Option OutputVal := none
  name : Option String := none
deriving DecidableEq, Repr

/-- One raw event of `astream_events`: `eventKey` is the value under the
new-format key "event" when that key is present, `eventTypeKey` the value
under the legacy key "event_type", `name` the top-level "name" entry. -/
structure RawEvent where
  eventKey : Option String := none
  eventTypeKey : Option String := none
  data : EventData := {}
  name : Option String := none
deriving DecidableEq, Repr

/-- The `if "event" in event ... elif "event_type" in event ... else` chain:
the kind string, taken from the new-format key first, else the legacy key;
`none` means the unknown-structure branch is taken. -/
def kindOf (e : RawEvent) : Option String :=
  match e.eventKey with
  | some k => some k
  | none => e.eventTypeKey

/-- The five recognized event kinds plus the fall-through. -/
inductive EKind where
  | action
  | toolStart
  | toolEnd
  | modelToken
  | finished
  | unknown
deriving DecidableEq, Repr

/-- The `if kind == ... or kind == ...` chain of the event loop. -/
def parseKind (k : String) : EKind :=
  if k = "on_agent_action" ∨ k = "agent_action" then EKind.action
  else if k = "on_tool_start" ∨ k = "tool_start" then EKind.toolStart
  else if k = "on_tool_end" ∨ k = "tool_end" then EKind.toolEnd
  else if k = "on_chat_model_stream" ∨ k = "llm_chunk" then EKind.modelToken
  else if k = "on_agent_finish" ∨ k = "agent_finish" then EKind.finished
  else EKind.unknown

/-- `event.get("name", data.get("name", "未知工具"))`. -/
def toolNameOf (e : RawEvent) : String :=
  e.name.getD (e.data.name.getD "未知工具")

/-- Classifier state across the event loop: `streamed_response`,
`final_answer`, messages sent so far, log records. -/
structure StreamState where
  streamed : String := ""
  finalAnswer : String := ""
  msgs : List Msg := []
  log : List LogMsg := []
deriving DecidableEq, Repr

/-- The body of the `async for event in ...` loop: classify one event and
update the state.  Unknown event structures (neither key present) log a
warning and are skipped; recognized structures with an unrecognized kind
fall through all `elif` branches and change nothing. -/
def classifyEvent (st : StreamState) (e : RawEvent) : StreamState :=
  match kindOf e with
  | none => { st with log := st.log ++ [LogMsg.warnUnknownEventStructure] }
  | some k =>
    match parseKind k with
    | EKind.action =>
      match e.data.action with
      | some (ActionVal.agentAction tool _) =>
          { st with
            log := st.log ++ [LogMsg.infoAgentAction tool],
            msgs := st.msgs ++ [Msg.usingTool tool] }
      | _ => st
    | EKind.toolStart => { st with msgs := st.msgs ++ [Msg.toolStart (toolNameOf e)] }
    | EKind.toolEnd => { st with msgs := st.msgs ++ [Msg.toolEnd (toolNameOf e)] }
    | EKind.modelToken =>
      let content := chunkContent e.data.chunk
      if content = "" then st else { st with streamed := st.streamed ++ content }
    | EKind.finished =>
      match e.data.output with
      | some (OutputVal.agentFinish rv) =>
        match rv.lookup "output" with
        | some a =>
            if a = "" then st
            else { st with
                   finalAnswer := a,
                   log := st.log ++ [LogMsg.infoFinalAnswer a] }
        | none => st
      | _ => st
    | EKind.unknown => st

/-- The whole event loop from a given state. -/
def runEvents (st : StreamState) (events : List RawEvent) : StreamState :=
  match events with
  | [] => st
  | e :: rest => runEvents (classifyEvent st e) rest

/-- Line 157: `full_response = final_answer if final_answer else
streamed_response` — the authoritative answer of one event sequence. -/
def classifierAnswer (events : List RawEvent) : String :=
  let st := runEvents {} events
  if st.finalAnswer ≠ "" then st.finalAnswer else st.streamed

/-- Specification-side view of one event: the non-empty final answer a
`finished` event records (`none` when the event is not a finished event
with an `AgentFinish` output whose "output" entry is a non-empty string). -/
def finishAnswerOf (e : RawEvent) : Option String :=
  match kindOf e with
  | none => none
  | some k =>
    if parseKind k = EKind.finished then
      match e.data.output with
      | some (OutputVal.agentFinish rv) =>
        match rv.lookup "output" with
        | some a => if a = "" then none else some a
        | none => none
      | _ => none
    else none

/-- Specification-side view of one event: the non-empty token payload a
model-token event contributes to the streamed accumulator. -/
def tokenContentOf (e : RawEvent) : Option String :=
  match kindOf e with
  | none => none
  | some k =>
    if parseKind k = EKind.modelToken then
      if chunkContent e.data.chunk = "" then none
      else some (chunkContent e.data.chunk)
    else none

/-- Concatenation of a list of strings in order. -/
def strConcat : List String → String
  | [] => ""
  | s :: rest => s ++ strConcat rest

/-!
Session service: `_create_rag_retriever`, `create_chatbot_service`,
`ChatbotService.process_message`.
-/

/-- Errors of the preloaded-knowledge path: the `FileNotFoundError` raised
when the glob matches nothing, the `ValueError` raised when no content
loads, and errors propagating from splitter / FAISS. -/
inductive RagError where
  | fileNotFound (err : String)
  | valueError (err : String)
  | libraryError (err : String)
deriving DecidableEq, Repr

/-- Oracles for `_create_rag_retriever`: the glob result for
`data_folder*.txt`, per-path `TextLoader(...).load()` results, splitter and
FAISS construction. -/
structure RagEnv where
  globTxt : List String
  loadText : String → Except String (List Document)
  split : List Document → List Document
  buildIndex : List Document → Except String Retriever

/-- The loop `for path in file_paths: try: all_docs.extend(load) except:
warn` of `_create_rag_retriever`. -/
def ragLoadLoop (env : RagEnv) : List String → List Document × List LogMsg
  | [] => ([], [])
  | p :: rest =>
      let (ds, lg) := ragLoadLoop env rest
      match env.loadText p with
      | Except.ok d => (d ++ ds, lg)
      | Except.error e => (ds, LogMsg.warnFileRead p e :: lg)

/-- `_create_rag_retriever(data_folder, embeddings)`. -/
def createRagRetriever (env : RagEnv) (dataFolder : String) :
    Except RagError Retriever × List LogMsg :=
  if env.globTxt = [] then
    (Except.error (RagError.fileNotFound
      ("在資料夾 \x27" ++ dataFolder ++ "\x27 中找不到任何 .txt 檔案。")), [])
  else
    let (docs, lg) := ragLoadLoop env env.globTxt
    if docs = [] then
      (Except.error (RagError.valueError
        ("無法從 " ++ dataFolder ++ " 中的檔案載入任何內容。")), lg)
    else
      match env.buildIndex (env.split docs) with
      | Except.ok r => (Except.ok r, lg)
      | Except.error e => (Except.error (RagError.libraryError e), lg)

/-- `RAG_DATA_FOLDER`. -/
def ragDataFolder : String := "rag_data/"

/-- The per-session state held by `ChatbotService`. -/
structure Service where
  baseRetriever : Option Retriever
  chatHistory : List (Role × String)
deriving DecidableEq, Repr

/-- `create_chatbot_service()`: build the preloaded retriever, catching
only `FileNotFoundError` (any other exception, in particular the
`ValueError` for zero usable documents, propagates and no service is
created). -/
def createChatbotService (env : RagEnv) : Except RagError Service × List LogMsg :=
  match createRagRetriever env ragDataFolder with
  | (Except.ok r, lg) => (Except.ok ⟨some r, []⟩, lg)
  | (Except.error (RagError.fileNotFound m), lg) =>
      (Except.ok ⟨none, []⟩,
       lg ++ [LogMsg.warnNoKnowledgeBase (m ++ " - 將不會載入預設知識庫。")])
  | (Except.error e, lg) => (Except.error e, lg)

/-- A LangChain `Tool` as assembled by `_get_rag_tool` (the retriever
callable itself is opaque; name and description are what the claims are
about). -/
structure ToolDesc where
  name : String
  description : String
deriving DecidableEq, Repr

/-- The preloaded-index tool of `process_message`. -/
def preloadedToolDesc : ToolDesc :=
  ⟨"preloaded_document_retriever",
   "當你需要回答關於預載的背景知識（如故事、設定）的問題時，請使用這個工具。"⟩

/-- The ad-hoc uploaded-files tool of `process_message`. -/
def uploadedToolDesc : ToolDesc :=
  ⟨"uploaded_file_retriever",
   "當你需要回答關於使用者剛剛上傳的檔案內容的問題時，請優先使用這個工具。"⟩

/-- Oracles for one `process_message` turn: the builder environment for an
ad-hoc index, the event sequence the orchestrator delivers, and an optional
exception raised by the stream after those events (`none` = the stream ends
normally). -/
structure PMEnv where
  benv : BuilderEnv
  stream : List RawEvent
  streamErr : Option String

/-- Outcome of one `process_message` call: the returned `full_response`,
the updated service, the visible messages (after placeholder
removal/update), the file system, log records, the caught exception if one
occurred, and the assembled tool descriptors. -/
structure PMOutcome where
  response : String
  service : Service
  msgs : List Msg
  fs : FS
  log : List LogMsg
  exc : Option String
  tools : List ToolDesc

/-- The `except Exception` branch of `process_message`: log the error, send
the user-visible error message, remove the placeholder if it was sent, end
the turn with `full_response = ""` (so the history is left unchanged). -/
def exceptOutcome (svc : Service) (e : String) (tools : List ToolDesc)
    (msgs : List Msg) (fs : FS) (log : List LogMsg) : PMOutcome :=
  { response := "", service := svc,
    msgs := (msgs ++ [Msg.error e]).filter (fun m => m ≠ Msg.placeholder),
    fs := fs, log := log ++ [LogMsg.errorAgentRun e],
    exc := some e, tools := tools }

/-- `process_message` from the point where the tools are assembled: send the
placeholder, consume the event stream, pick `full_response`, send the final
answer (or update the placeholder to the apology), and append to the
conversation history exactly when `full_response` is non-empty. -/
def runAgentPhase (env : PMEnv) (svc : Service) (userMessage : String)
    (tools : List ToolDesc) (msgs0 : List Msg) (fs : FS) (log0 : List LogMsg) :
    PMOutcome :=
  let msgs1 := msgs0 ++ [Msg.placeholder]
  let st := runEvents {} env.stream
  let msgs2 := msgs1 ++ st.msgs
  let log1 := log0 ++ st.log
  match env.streamErr with
  | some e => exceptOutcome svc e tools msgs2 fs log1
  | none =>
    let full := if st.finalAnswer ≠ "" then st.finalAnswer else st.streamed
    if full = "" then
      { response := "", service := svc,
        msgs := msgs2.map (fun m => if m = Msg.placeholder then Msg.apology else m),
        fs := fs, log := log1, exc := none, tools := tools }
    else
      { response := full,
        service := { svc with
          chatHistory := svc.chatHistory ++ [(Role.human, userMessage), (Role.ai, full)] },
        msgs := (msgs2 ++ [Msg.answer full]).filter (fun m => m ≠ Msg.placeholder),
        fs := fs, log := log1, exc := none, tools := tools }

/-- `ChatbotService.process_message(user_message, new_files)`.  An empty
`newFiles` list stands for both `None` and `[]` (the Python guard
`if new_files:` treats them alike). -/
def processMessage (env : PMEnv) (svc : Service) (userMessage : String)
    (newFiles : List UploadFile) (fs0 : FS) : PMOutcome :=
  let tools0 : List ToolDesc :=
    match svc.baseRetriever with
    | some _ => [preloadedToolDesc]
    | none => []
  if newFiles = [] then
    runAgentPhase env svc userMessage tools0 [] fs0 []
  else
    let msgs1 := [Msg.indexing newFiles.length]
    let b := createTempRetriever env.benv newFiles fs0
    match b.res with
    | Except.error be =>
        exceptOutcome svc (buildErrText be) tools0 (msgs1 ++ b.msgs) b.fs b.log
    | Except.ok _ =>
        runAgentPhase env svc userMessage (tools0 ++ [uploadedToolDesc])
          (msgs1 ++ b.msgs) b.fs b.log

/-- The inputs of one conversation turn. -/
structure Turn where
  env : PMEnv
  userMessage : String
  newFiles : List UploadFile
  fs : FS

/-- Run a sequence of `process_message` turns against one service. -/
def runTurns (svc : Service) : List Turn → Service
  | [] => svc
  | t :: ts => runTurns (processMessage t.env svc t.userMessage t.newFiles t.fs).service ts

/-- The number of successful turns (those returning a non-empty answer). -/
def countSuccess (svc : Service) : List Turn → Nat
  | [] => 0
  | t :: ts =>
      let out := processMessage t.env svc t.userMessage t.newFiles t.fs
      (if out.response = "" then 0 else 1) + countSuccess out.service ts

/-- The history alternates `(human, ai), (human, ai), ...` and has even
length. -/
def alternatesHA : List (Role × String) → Bool
  | [] => true
  | [_] => false
  | (r1, _) :: (r2, _) :: rest =>
      (r1 == Role.human) && (r2 == Role.ai) && alternatesHA rest

/-- The last element of a list, or the default when the list is empty. -/
def lastD {α : Type} : List α → α → α
  | [], d => d
  | a :: rest, _ => lastD rest a

/-- The skip-report messages the builder sends, one per file whose loader
raised, in file order (mirrors `successfulDocs`). -/
def specSkipMsgs (env : BuilderEnv) : List UploadFile → List Msg
  | [] => []
  | f :: rest =>
      (if fileHasSource f then
        match loadResult env f with
        | Except.ok _ => []
        | Except.error e => [Msg.skipFile (loaderKindFor f.name) f.name e]
      else []) ++ specSkipMsgs env rest

/-!
Concrete instances used by the witness theorems.
-/

/-- A builder environment in which `a.txt` parses to one document and every
other file raises. -/
def benvW : BuilderEnv :=
  { load := fun _ f =>
      if f.name = "a.txt" then Except.ok ["A-doc"] else Except.error "parse failure",
    split := fun ds => ds,
    buildIndex := fun ds => Except.ok ⟨ds⟩ }

/-- An uploaded file with an on-disk path that parses. -/
def fileA : UploadFile := ⟨"a.txt", some "/upload/a.txt", none⟩

/-- An uploaded file with only in-memory content whose loader raises. -/
def fileB : UploadFile := ⟨"b.txt", none, some "raw-bytes"⟩

/-- An empty file system. -/
def fsW : FS := ⟨[], 0⟩

/-- A finished event carrying answer `ans`. -/
def finishedEvent (ans : String) : RawEvent :=
  { eventKey := some "on_agent_finish",
    data := { output := some (OutputVal.agentFinish [("output", ans)]) } }

/-- A model-token event carrying chunk content `c`. -/
def tokenEvent (c : String) : RawEvent :=
  { eventKey := some "on_chat_model_stream",
    data := { chunk := some (ChunkVal.withContent c) } }

/-- A turn environment whose stream ends with a finished answer. -/
def pmEnvOk : PMEnv := ⟨benvW, [finishedEvent "你好"], none⟩

/-- A turn environment whose stream raises. -/
def pmEnvErr : PMEnv := ⟨benvW, [], some "boom"⟩

/-- A turn environment whose stream delivers no content at all. -/
def pmEnvEmpty : PMEnv := ⟨benvW, [], none⟩

/-- A fresh service with no preloaded retriever. -/
def svcW : Service := ⟨none, []⟩

/-- A successful turn input. -/
def turnOk : Turn := ⟨pmEnvOk, "hi", [], fsW⟩

/-- A failing turn input. -/
def turnErr : Turn := ⟨pmEnvErr, "hi", [], fsW⟩

/-- A RAG environment whose glob finds one file that fails to load: the
whole batch yields zero usable documents. -/
def ragEnvNoDocs : RagEnv :=
  ⟨["rag_data/a.txt"], fun _ => Except.error "boom", fun ds => ds,
   fun ds => Except.ok ⟨ds⟩⟩

/-- A RAG environment whose glob matches nothing. -/
def ragEnvNoFiles : RagEnv :=
  ⟨[], fun _ => Except.error "unused", fun ds => ds, fun ds => Except.ok ⟨ds⟩⟩

/-!
Lemmas about the event-stream classifier.
-/

theorem lastD_mem {α : Type} (l : List α) (a : α) : lastD l a ∈ a :: l := by
  induction l generalizing a with
  | nil => simp [lastD]
  | cons b bs ih =>
    have h := ih b
    simp only [lastD]
    rcases List.mem_cons.mp h with h | h
    · rw [h]; simp
    · simp [h]

/-- A recorded finished answer is never the empty string. -/
theorem finishAnswerOf_ne_empty (e : RawEvent) (a : String)
    (h : finishAnswerOf e = some a) : a ≠ "" := by
  unfold finishAnswerOf at h
  split at h
  · simp at h
  · split at h
    · split at h
      · split at h
        · split at h
          · simp at h
          · injection h with h2; rw [← h2]; assumption
        · simp at h
      · simp at h
    · simp at h

/-- Effect of one classification step on `final_answer`. -/
theorem classifyEvent_finalAnswer (st : StreamState) (e : RawEvent) :
    (classifyEvent st e).finalAnswer = (finishAnswerOf e).getD st.finalAnswer := by
  cases hk : kindOf e with
  | none => simp [classifyEvent, finishAnswerOf, hk]
  | some k =>
    cases hpk : parseKind k with
    | action =>
      cases ha : e.data.action with
      | none => simp [classifyEvent, finishAnswerOf, hk, hpk, ha]
      | some av => cases av <;> simp [classifyEvent, finishAnswerOf, hk, hpk, ha]
    | toolStart => simp [classifyEvent, finishAnswerOf, hk, hpk]
    | toolEnd => simp [classifyEvent, finishAnswerOf, hk, hpk]
    | modelToken =>
      by_cases hc : chunkContent e.data.chunk = "" <;>
        simp [classifyEvent, finishAnswerOf, hk, hpk, hc]
    | finished =>
      cases ho : e.data.output with
      | none => simp [classifyEvent, finishAnswerOf, hk, hpk, ho]
      | some ov =>
        cases ov with
        | agentFinish rv =>
          cases hl : rv.lookup "output" with
          | none => simp [classifyEvent, finishAnswerOf, hk, hpk, ho, hl]
          | some a =>
            by_cases hae : a = "" <;>
              simp [classifyEvent, finishAnswerOf, hk, hpk, ho, hl, hae]
        | notFinish => simp [classifyEvent, finishAnswerOf, hk, hpk, ho]
    | unknown => simp [classifyEvent, finishAnswerOf, hk, hpk]

/-- Effect of one classification step on `streamed_response`. -/
theorem classifyEvent_streamed (st : StreamState) (e : RawEvent) :
    (classifyEvent st e).streamed =
      (match tokenContentOf e with
       | some c => st.streamed ++ c
       | none => st.streamed) := by
  cases hk : kindOf e with
  | none => simp [classifyEvent, tokenContentOf, hk]
  | some k =>
    cases hpk : parseKind k with
    | action =>
      cases ha : e.data.action with
      | none => simp [classifyEvent, tokenContentOf, hk, hpk, ha]
      | some av => cases av <;> simp [classifyEvent, tokenContentOf, hk, hpk, ha]
    | toolStart => simp [classifyEvent, tokenContentOf, hk, hpk]
    | toolEnd => simp [classifyEvent, tokenContentOf, hk, hpk]
    | modelToken =>
      by_cases hc : chunkContent e.data.chunk = "" <;>
        simp [classifyEvent, tokenContentOf, hk, hpk, hc]
    | finished =>
      cases ho : e.data.output with
      | none => simp [classifyEvent, tokenContentOf, hk, hpk, ho]
      | some ov =>
        cases ov with
        | agentFinish rv =>
          cases hl : rv.lookup "output" with
          | none => simp [classifyEvent, tokenContentOf, hk, hpk, ho, hl]
          | some a =>
            by_cases hae : a = "" <;>
              simp [classifyEvent, tokenContentOf, hk, hpk, ho, hl, hae]
        | notFinish => simp [classifyEvent, tokenContentOf, hk, hpk, ho]
    | unknown => simp [classifyEvent, tokenContentOf, hk, hpk]

/-- After the whole loop, `final_answer` is the last non-empty finished
payload, or the initial value when none was seen. -/
theorem runEvents_finalAnswer (events : List RawEvent) : ∀ st : StreamState,
    (runEvents st events).finalAnswer =
      lastD (events.filterMap finishAnswerOf) st.finalAnswer := by
  induction events with
  | nil => intro st; simp [runEvents, lastD]
  | cons e es ih =>
    intro st
    show (runEvents (classifyEvent st e) es).finalAnswer = _
    rw [ih]
    cases h : finishAnswerOf e with
    | none =>
      have h2 : (classifyEvent st e).finalAnswer = st.finalAnswer := by
        rw [classifyEvent_finalAnswer, h]; rfl
      rw [List.filterMap_cons_none h, h2]
    | some a =>
      have h2 : (classifyEvent st e).finalAnswer = a := by
        rw [classifyEvent_finalAnswer, h]; rfl
      rw [List.filterMap_cons_some h, h2]
      rfl

/-- After the whole loop, `streamed_response` is the initial value followed
by the non-empty token payloads in arrival order. -/
theorem runEvents_streamed (events : List RawEvent) : ∀ st : StreamState,
    (runEvents st events).streamed =
      st.streamed ++ strConcat (events.filterMap tokenContentOf) := by
  induction events with
  | nil => intro st; simp [runEvents, strConcat, String.append_empty]
  | cons e es ih =>
    intro st
    show (runEvents (classifyEvent st e) es).streamed = _
    rw [ih]
    cases h : tokenContentOf e with
    | none =>
      have h2 : (classifyEvent st e).streamed = st.streamed := by
        rw [classifyEvent_streamed, h]
      rw [List.filterMap_cons_none h, h2]
    | some c =>
      have h2 : (classifyEvent st e).streamed = st.streamed ++ c := by
        rw [classifyEvent_streamed, h]
      rw [List.filterMap_cons_some h, h2, String.append_assoc]
      rfl

/-- C1.  For every event sequence consumed in one `process_message` run,
the authoritative answer (`full_response = final_answer if final_answer
else streamed_response`) equals the payload of the last finished event
carrying a non-empty answer whenever such an event was observed (regardless
of prior model-token events), and otherwise equals the concatenation of the
non-empty model-token payloads in arrival order. -/
theorem classifier_authoritative_answer (events : List RawEvent) :
    classifierAnswer events =
      lastD (events.filterMap finishAnswerOf)
        (strConcat (events.filterMap tokenContentOf)) := by
  have hf := runEvents_finalAnswer events {}
  have hs := runEvents_streamed events {}
  have hgoal : classifierAnswer events =
      (if (runEvents {} events).finalAnswer ≠ "" then
        (runEvents {} events).finalAnswer
      else (runEvents {} events).streamed) := rfl
  rw [hgoal]
  rcases hl : events.filterMap finishAnswerOf with _ | ⟨a, rest⟩
  · rw [hl] at hf
    have hf2 : (runEvents {} events).finalAnswer = "" := hf
    rw [if_neg (by simp [hf2]), hs]
    exact String.empty_append _
  · rw [hl] at hf
    have hfa : (runEvents {} events).finalAnswer = lastD rest a := hf
    have hx : lastD rest a ∈ events.filterMap finishAnswerOf := by
      rw [hl]; exact lastD_mem rest a
    obtain ⟨e0, _, he0⟩ := List.mem_filterMap.mp hx
    have hne := finishAnswerOf_ne_empty e0 _ he0
    rw [if_pos (by rw [hfa]; exact hne), hfa]
    rfl

/-- C5 counterexample.  The event `{"event": "on_chain_start", ...}` has a
recognized structure but an unrecognized kind: the loop falls through every
`elif` branch and continues with the state — and in particular the log —
completely unchanged, so no warning is logged for it, contrary to the
claim. -/
theorem unknown_kind_no_warning_counterexample :
    kindOf { eventKey := some "on_chain_start" } = some "on_chain_start"
    ∧ parseKind "on_chain_start" = EKind.unknown
    ∧ classifyEvent {} { eventKey := some "on_chain_start" } = {}
    ∧ (classifyEvent {} { eventKey := some "on_chain_start" }).log = [] := by
  refine ⟨rfl, by decide, ?_, ?_⟩ <;> decide

/-- C5 amended.  Events whose structure carries neither the "event" nor the
"event_type" key log a warning and are otherwise ignored; events with a
recognized structure but an unrecognized kind are silently ignored (no
warning); in both cases the loop simply continues with the remaining
events. -/
theorem unknown_event_handling :
    (∀ (st : StreamState) (e : RawEvent), kindOf e = none →
        classifyEvent st e =
          { st with log := st.log ++ [LogMsg.warnUnknownEventStructure] })
    ∧ (∀ (st : StreamState) (e : RawEvent) (k : String),
        kindOf e = some k → parseKind k = EKind.unknown → classifyEvent st e = st)
    ∧ (∀ (st : StreamState) (e : RawEvent) (rest : List RawEvent),
        runEvents st (e :: rest) = runEvents (classifyEvent st e) rest) := by
  refine ⟨?_, ?_, ?_⟩
  · intro st e h
    simp [classifyEvent, h]
  · intro st e k hk hpk
    simp [classifyEvent, hk, hpk]
  · intro st e rest
    rfl

/-- Witness for the amended C5 theorem at concrete inputs: the key-less
event logs the warning, the `on_chain_start` event is dropped silently and
the loop proceeds. -/
theorem unknown_event_handling_witness :
    classifyEvent {} {} =
      { streamed := "", finalAnswer := "", msgs := [],
        log := [LogMsg.warnUnknownEventStructure] }
    ∧ classifyEvent {} { eventKey := some "on_chain_start" } = {}
    ∧ runEvents {} [{ eventKey := some "on_chain_start" }] =
        runEvents (classifyEvent {} { eventKey := some "on_chain_start" }) [] := by
  refine ⟨?_, ?_, ?_⟩
  · exact unknown_event_handling.1 {} {} rfl
  · exact unknown_event_handling.2.1 {} _ "on_chain_start" rfl (by decide)
  · exact unknown_event_handling.2.2 {} _ []

/-- C10.  When an event carries the new-format "event" key, the classifier
takes the kind from it and the legacy "event_type" key is ignored entirely
(the classification result does not depend on it); the legacy key is
consulted only when the new-format key is absent. -/
theorem new_format_key_precedence :
    (∀ (st : StreamState) (k : Option String) (t1 t2 : Option String)
        (d : EventData) (n : Option String) (v : String),
        classifyEvent st { eventKey := some v, eventTypeKey := t1, data := d, name := n }
          = classifyEvent st { eventKey := some v, eventTypeKey := t2, data := d, name := n }
        ∧ kindOf { eventKey := some v, eventTypeKey := k, data := d, name := n } = some v)
    ∧ (∀ (t : Option String) (d : EventData) (n : Option String),
        kindOf { eventKey := none, eventTypeKey := t, data := d, name := n } = t) := by
  refine ⟨?_, ?_⟩
  · intro st k t1 t2 d n v
    exact ⟨rfl, rfl⟩
  · intro t d n
    rfl

/-!
Lemmas about the ad-hoc index builder.
-/

/-- Effect of one file-loop iteration on the accumulated documents. -/
theorem builderStep_docs (env : BuilderEnv) (st : BState) (f : UploadFile) :
    (builderStep env st f).docs = st.docs ++
      (if fileHasSource f then
        match loadResult env f with
        | Except.ok ds => ds
        | Except.error _ => []
      else []) := by
  unfold builderStep
  cases hp : f.path with
  | some p =>
    cases hl : loadResult env f with
    | ok ds => simp [fileHasSource, hp, hl]
    | error e => simp [fileHasSource, hp, hl]
  | none =>
    cases hc : f.content with
    | some c =>
      cases hl : loadResult env f with
      | ok ds => simp [fileHasSource, hp, hc, hl, FS.mkTemp]
      | error e => simp [fileHasSource, hp, hc, hl, FS.mkTemp]
    | none => simp [fileHasSource, hp, hc]

/-- Effect of one file-loop iteration on the sent messages. -/
theorem builderStep_msgs (env : BuilderEnv) (st : BState) (f : UploadFile) :
    (builderStep env st f).msgs = st.msgs ++
      (if fileHasSource f then
        match loadResult env f with
        | Except.ok _ => []
        | Except.error e => [Msg.skipFile (loaderKindFor f.name) f.name e]
      else []) := by
  unfold builderStep
  cases hp : f.path with
  | some p =>
    cases hl : loadResult env f with
    | ok ds => simp [fileHasSource, hp, hl]
    | error e => simp [fileHasSource, hp, hl]
  | none =>
    cases hc : f.content with
    | some c =>
      cases hl : loadResult env f with
      | ok ds => simp [fileHasSource, hp, hc, hl, FS.mkTemp]
      | error e => simp [fileHasSource, hp, hc, hl, FS.mkTemp]
    | none => simp [fileHasSource, hp, hc]

/-- Effect of one file-loop iteration on the file system and the recorded
temporary files: files only appear together with their record in
`temp_files_to_delete`, nothing is removed, and every recorded temporary
has a generated name. -/
theorem builderStep_fs (env : BuilderEnv) (st : BState) (f : UploadFile) :
    (∀ p, p ∈ (builderStep env st f).fs.files →
        p ∈ st.fs.files ∨ p ∈ (builderStep env st f).temps)
    ∧ (∀ p, p ∈ st.fs.files → p ∈ (builderStep env st f).fs.files)
    ∧ (∀ p, p ∈ st.temps → p ∈ (builderStep env st f).temps)
    ∧ (∀ p, p ∈ (builderStep env st f).temps →
        p ∈ st.temps ∨ ∃ n s, p = tmpName n s) := by
  unfold builderStep
  cases hp : f.path with
  | some p =>
    cases hl : loadResult env f with
    | ok ds =>
      simp only [hp, hl]
      exact ⟨fun p h => Or.inl h, fun p h => h, fun p h => h, fun p h => Or.inl h⟩
    | error e =>
      simp only [hp, hl]
      exact ⟨fun p h => Or.inl h, fun p h => h, fun p h => h, fun p h => Or.inl h⟩
  | none =>
    cases hc : f.content with
    | some c =>
      cases hl : loadResult env f with
      | ok ds =>
        simp only [hp, hc, hl, FS.mkTemp]
        refine ⟨?_, ?_, ?_, ?_⟩
        · intro q hq
          rcases List.mem_cons.mp hq with h | h
          · exact Or.inr (List.mem_append_right _ (by simp [h]))
          · exact Or.inl h
        · intro q hq; exact List.mem_cons_of_mem _ hq
        · intro q hq; exact List.mem_append_left _ hq
        · intro q hq
          rcases List.mem_append.mp hq with h | h
          · exact Or.inl h
          · simp only [List.mem_singleton] at h
            exact Or.inr ⟨st.fs.counter, extSuffix f.name, h⟩
      | error e =>
        simp only [hp, hc, hl, FS.mkTemp]
        refine ⟨?_, ?_, ?_, ?_⟩
        · intro q hq
          rcases List.mem_cons.mp hq with h | h
          · exact Or.inr (List.mem_append_right _ (by simp [h]))
          · exact Or.inl h
        · intro q hq; exact List.mem_cons_of_mem _ hq
        · intro q hq; exact List.mem_append_left _ hq
        · intro q hq
          rcases List.mem_append.mp hq with h | h
          · exact Or.inl h
          · simp only [List.mem_singleton] at h
            exact Or.inr ⟨st.fs.counter, extSuffix f.name, h⟩
    | none =>
      simp only [hp, hc]
      exact ⟨fun p h => Or.inl h, fun p h => h, fun p h => h, fun p h => Or.inl h⟩

/-- The file loop accumulates exactly the documents of the successfully
loaded files. -/
theorem buildLoop_docs (env : BuilderEnv) (files : List UploadFile) :
    ∀ st : BState, (buildLoop env files st).docs = st.docs ++ successfulDocs env files := by
  induction files with
  | nil => intro st; simp [buildLoop, successfulDocs]
  | cons f rest ih =>
    intro st
    show (buildLoop env rest (builderStep env st f)).docs = _
    rw [ih, builderStep_docs]
    simp [successfulDocs, List.append_assoc]

/-- The file loop sends exactly the skip-report messages. -/
theorem buildLoop_msgs (env : BuilderEnv) (files : List UploadFile) :
    ∀ st : BState, (buildLoop env files st).msgs = st.msgs ++ specSkipMsgs env files := by
  induction files with
  | nil => intro st; simp [buildLoop, specSkipMsgs]
  | cons f rest ih =>
    intro st
    show (buildLoop env rest (builderStep env st f)).msgs = _
    rw [ih, builderStep_msgs]
    simp [specSkipMsgs, List.append_assoc]

/-- File-system invariant of the whole file loop. -/
theorem buildLoop_fs (env : BuilderEnv) (files : List UploadFile) :
    ∀ st : BState,
      (∀ p, p ∈ (buildLoop env files st).fs.files →
          p ∈ st.fs.files ∨ p ∈ (buildLoop env files st).temps)
      ∧ (∀ p, p ∈ st.fs.files → p ∈ (buildLoop env files st).fs.files)
      ∧ (∀ p, p ∈ st.temps → p ∈ (buildLoop env files st).temps)
      ∧ (∀ p, p ∈ (buildLoop env files st).temps →
          p ∈ st.temps ∨ ∃ n s, p = tmpName n s) := by
  induction files with
  | nil =>
    intro st
    exact ⟨fun p h => Or.inl h, fun p h => h, fun p h => h, fun p h => Or.inl h⟩
  | cons f rest ih =>
    intro st
    obtain ⟨s1, s2, s3, s4⟩ := builderStep_fs env st f
    obtain ⟨i1, i2, i3, i4⟩ := ih (builderStep env st f)
    refine ⟨?_, ?_, ?_, ?_⟩
    · intro p hp
      rcases i1 p hp with h | h
      · rcases s1 p h with h2 | h2
        · exact Or.inl h2
        · exact Or.inr (i3 p h2)
      · exact Or.inr h
    · intro p hp
      exact i2 p (s2 p hp)
    · intro p hp
      exact i3 p (s3 p hp)
    · intro p hp
      rcases i4 p hp with h | h
      · rcases s4 p h with h2 | h2
        · exact Or.inl h2
        · exact Or.inr h2
      · exact Or.inr h

/-- Membership in the file system after the cleanup loop. -/
theorem unlinkAll_mem (temps : List String) : ∀ (fs : FS) (q : String),
    q ∈ (unlinkAll temps fs).files ↔ q ∈ fs.files ∧ q ∉ temps := by
  induction temps with
  | nil => intro fs q; simp [unlinkAll]
  | cons p rest ih =>
    intro fs q
    show q ∈ (unlinkAll rest (fs.unlink p)).files ↔ _
    rw [ih]
    unfold FS.unlink
    by_cases hp : p ∈ fs.files
    · simp only [hp, if_true, List.mem_cons, List.mem_filter, decide_eq_true_eq]
      constructor
      · rintro ⟨⟨h1, h2⟩, h3⟩
        refine ⟨h1, ?_⟩
        intro hx
        rcases hx with hx | hx
        · exact h2 hx
        · exact h3 hx
      · rintro ⟨h1, h2⟩
        exact ⟨⟨h1, fun hx => h2 (Or.inl hx)⟩, fun hx => h2 (Or.inr hx)⟩
    · simp only [hp, if_false, List.mem_cons]
      constructor
      · rintro ⟨h1, h2⟩
        refine ⟨h1, ?_⟩
        intro hx
        rcases hx with hx | hx
        · exact hp (hx ▸ h1)
        · exact h2 hx
      · rintro ⟨h1, h2⟩
        exact ⟨h1, fun hx => h2 (Or.inr hx)⟩

/-- A file of the batch whose loader raised contributes its skip-report
message. -/
theorem mem_specSkipMsgs (env : BuilderEnv) {f : UploadFile} {e : String} :
    ∀ {files : List UploadFile}, f ∈ files → fileHasSource f = true →
      loadResult env f = Except.error e →
      Msg.skipFile (loaderKindFor f.name) f.name e ∈ specSkipMsgs env files := by
  intro files
  induction files with
  | nil => intro h; exact absurd h (List.not_mem_nil f)
  | cons g rest ih =>
    intro hmem hsrc hload
    rcases List.mem_cons.mp hmem with h | h
    · rw [← h]
      simp [specSkipMsgs, hsrc, hload]
    · exact List.mem_append_right _ (ih h hsrc hload)

/-- C4.  Every temporary file created during a call of the ad-hoc index
builder is removed before the call returns, on all exit paths (success,
per-file failure, zero-documents failure, index-library failure): provided
no pre-existing file uses a generated temporary name, the final file system
contains exactly the initial files, and no generated name remains. -/
theorem temp_files_all_removed (env : BuilderEnv) (files : List UploadFile)
    (fs0 : FS) (hfresh : ∀ p, p ∈ fs0.files → ∀ n s, p ≠ tmpName n s) :
    (∀ q, q ∈ (createTempRetriever env files fs0).fs.files ↔ q ∈ fs0.files)
    ∧ (∀ n s, tmpName n s ∉ (createTempRetriever env files fs0).fs.files) := by
  obtain ⟨i1, i2, i3, i4⟩ := buildLoop_fs env files ⟨[], [], fs0, [], []⟩
  have main : ∀ q, q ∈ (createTempRetriever env files fs0).fs.files ↔ q ∈ fs0.files := by
    intro q
    show q ∈ (unlinkAll (buildLoop env files ⟨[], [], fs0, [], []⟩).temps
      (buildLoop env files ⟨[], [], fs0, [], []⟩).fs).files ↔ _
    rw [unlinkAll_mem]
    constructor
    · rintro ⟨hq, hnq⟩
      rcases i1 q hq with h | h
      · exact h
      · exact absurd h hnq
    · intro hq
      refine ⟨i2 q hq, ?_⟩
      intro hqt
      rcases i4 q hqt with h | ⟨n, s, hn⟩
      · exact absurd h (List.not_mem_nil q)
      · exact hfresh q hq n s hn
  refine ⟨main, ?_⟩
  intro n s hmem
  exact hfresh _ ((main _).mp hmem) n s rfl

/-- Witness for C4: a batch with one path-backed file and one content-only
file (which allocates a temporary file) against an empty file system; after
the call the temporary name is gone. -/
theorem temp_files_all_removed_witness :
    tmpName 0 ".txt" ∉ (createTempRetriever benvW [fileA, fileB] fsW).fs.files := by
  have h := temp_files_all_removed benvW [fileA, fileB] fsW
    (fun p hp => absurd hp (List.not_mem_nil p))
  exact h.2 0 ".txt"

/-- C7.  The builder raises `ValueError` ("zero usable documents") exactly
when no document was successfully loaded from the whole batch; with at
least one loaded document this error is never raised. -/
theorem empty_content_error_iff (env : BuilderEnv) (files : List UploadFile)
    (fs0 : FS) :
    (createTempRetriever env files fs0).res = Except.error BuildError.emptyContent
    ↔ successfulDocs env files = [] := by
  have hd : (buildLoop env files ⟨[], [], fs0, [], []⟩).docs = successfulDocs env files := by
    rw [buildLoop_docs]
    simp
  by_cases hs : successfulDocs env files = []
  · simp [createTempRetriever, hd, hs]
  · simp only [createTempRetriever, hd, hs, if_false]
    cases hbi : env.buildIndex (env.split (successfulDocs env files)) <;> simp [hbi, hs]

/-- C6.  A file whose loader raises is skipped and reported without
aborting the batch: when at least one document loads and the index library
succeeds, the builder returns the index built from exactly the documents of
the successfully loaded files, and the skip-report message of the failing file
was sent. -/
theorem failed_file_skipped_not_fatal (env : BuilderEnv) (files : List UploadFile)
    (fs0 : FS) (f : UploadFile) (e : String) (r : Retriever)
    (hmem : f ∈ files) (hsrc : fileHasSource f = true)
    (hload : loadResult env f = Except.error e)
    (hne : successfulDocs env files ≠ [])
    (hidx : env.buildIndex (env.split (successfulDocs env files)) = Except.ok r) :
    (createTempRetriever env files fs0).res = Except.ok r
    ∧ Msg.skipFile (loaderKindFor f.name) f.name e ∈
        (createTempRetriever env files fs0).msgs := by
  have hd : (buildLoop env files ⟨[], [], fs0, [], []⟩).docs = successfulDocs env files := by
    rw [buildLoop_docs]
    simp
  have hm : (buildLoop env files ⟨[], [], fs0, [], []⟩).msgs = specSkipMsgs env files := by
    rw [buildLoop_msgs]
    simp
  constructor
  · simp [createTempRetriever, hd, hne, hidx]
  · show Msg.skipFile (loaderKindFor f.name) f.name e ∈
      (buildLoop env files ⟨[], [], fs0, [], []⟩).msgs
    rw [hm]
    exact mem_specSkipMsgs env hmem hsrc hload

/-- Witness for C6: file A parses, file B raises; the builder returns the
index over the document of A, and the skip report for B was sent. -/
theorem failed_file_skipped_not_fatal_witness :
    (createTempRetriever benvW [fileA, fileB] fsW).res = Except.ok ⟨["A-doc"]⟩
    ∧ Msg.skipFile (loaderKindFor fileB.name) fileB.name "parse failure" ∈
        (createTempRetriever benvW [fileA, fileB] fsW).msgs := by
  have h := failed_file_skipped_not_fatal benvW [fileA, fileB] fsW fileB
    "parse failure" ⟨["A-doc"]⟩ (by decide) (by decide) rfl
    (by decide) rfl
  exact h

/-!
Lemmas about `process_message` and the session service.
-/

/-- The history update of the agent phase: the conversation history gains
exactly the pair `(human, input), (ai, answer)` when the answer of the turn is
non-empty, and is untouched otherwise. -/
theorem runAgentPhase_hist (env : PMEnv) (svc : Service) (u : String)
    (tools : List ToolDesc) (msgs0 : List Msg) (fs : FS) (log0 : List LogMsg) :
    (runAgentPhase env svc u tools msgs0 fs log0).service.chatHistory
      = svc.chatHistory ++
        (if (runAgentPhase env svc u tools msgs0 fs log0).response = "" then []
         else [(Role.human, u),
               (Role.ai, (runAgentPhase env svc u tools msgs0 fs log0).response)]) := by
  unfold runAgentPhase exceptOutcome
  cases hse : env.streamErr with
  | some e => simp
  | none =>
    by_cases hfa : (runEvents {} env.stream).finalAnswer = ""
    · by_cases hsr : (runEvents {} env.stream).streamed = ""
      · simp [hfa, hsr]
      · simp [hfa, hsr]
    · simp [hfa]

/-- The history update of one whole `process_message` call. -/
theorem processMessage_hist (env : PMEnv) (svc : Service) (u : String)
    (nf : List UploadFile) (fs0 : FS) :
    (processMessage env svc u nf fs0).service.chatHistory
      = svc.chatHistory ++
        (if (processMessage env svc u nf fs0).response = "" then []
         else [(Role.human, u),
               (Role.ai, (processMessage env svc u nf fs0).response)]) := by
  unfold processMessage
  by_cases hnf : nf = []
  · simp only [hnf, if_true]
    exact runAgentPhase_hist env svc u _ [] fs0 []
  · simp only [hnf, if_false]
    cases hb : (createTempRetriever env.benv nf fs0).res with
    | error be =>
      simp only [hb, exceptOutcome]
      simp
    | ok r =>
      simp only [hb]
      exact runAgentPhase_hist env svc u _ _ _ _

/-- Appending one `(human, ai)` pair preserves the alternation shape. -/
theorem alternatesHA_append (l : List (Role × String)) (u a : String)
    (h : alternatesHA l = true) :
    alternatesHA (l ++ [(Role.human, u), (Role.ai, a)]) = true := by
  induction l using alternatesHA.induct with
  | case1 => simp [alternatesHA]
  | case2 x => simp [alternatesHA] at h
  | case3 r1 s1 r2 s2 rest ih =>
    simp only [List.cons_append, alternatesHA, Bool.and_eq_true] at h ⊢
    obtain ⟨⟨h1, h2⟩, h3⟩ := h
    exact ⟨⟨h1, h2⟩, ih h3⟩

/-- Multi-turn history shape: alternation is preserved and the length grows
by two per successful turn. -/
theorem runTurns_hist (turns : List Turn) : ∀ svc : Service,
    alternatesHA svc.chatHistory = true →
    alternatesHA (runTurns svc turns).chatHistory = true
    ∧ (runTurns svc turns).chatHistory.length
        = svc.chatHistory.length + 2 * countSuccess svc turns := by
  induction turns with
  | nil =>
    intro svc halt
    exact ⟨halt, by simp [runTurns, countSuccess]⟩
  | cons t ts ih =>
    intro svc halt
    have hh := processMessage_hist t.env svc t.userMessage t.newFiles t.fs
    show alternatesHA
        (runTurns (processMessage t.env svc t.userMessage t.newFiles t.fs).service ts).chatHistory
          = true
      ∧ (runTurns (processMessage t.env svc t.userMessage t.newFiles t.fs).service ts).chatHistory.length
          = svc.chatHistory.length + 2 * countSuccess svc (t :: ts)
    have hcs : countSuccess svc (t :: ts)
        = (if (processMessage t.env svc t.userMessage t.newFiles t.fs).response = ""
           then 0 else 1)
          + countSuccess (processMessage t.env svc t.userMessage t.newFiles t.fs).service ts := rfl
    by_cases hr : (processMessage t.env svc t.userMessage t.newFiles t.fs).response = ""
    · have hist_eq : (processMessage t.env svc t.userMessage t.newFiles t.fs).service.chatHistory
          = svc.chatHistory := by
        rw [hh]
        simp [hr]
      obtain ⟨a1, a2⟩ := ih _ (by rw [hist_eq]; exact halt)
      refine ⟨a1, ?_⟩
      rw [a2, hist_eq, hcs]
      simp [hr]
    · have hist_eq : (processMessage t.env svc t.userMessage t.newFiles t.fs).service.chatHistory
          = svc.chatHistory
            ++ [(Role.human, t.userMessage),
                (Role.ai, (processMessage t.env svc t.userMessage t.newFiles t.fs).response)] := by
        rw [hh]
        simp [hr]
      obtain ⟨a1, a2⟩ := ih _ (by rw [hist_eq]; exact alternatesHA_append _ _ _ halt)
      refine ⟨a1, ?_⟩
      rw [a2, hist_eq, hcs]
      simp only [List.length_append, List.length_cons, List.length_nil, hr, if_false]
      omega

/-- C2.  The conversation history is appended with exactly the pair
`(human, input), (ai, answer)` if and only if the turn produced a non-empty
answer (failed turns leave it unchanged); consequently, starting from an
alternating history, after any turn sequence the history still alternates
`(human, ai)` and holds exactly two entries per successful turn — in
particular, from an empty history, N successful turns yield exactly 2N
entries. -/
theorem history_appended_iff_success :
    (∀ (env : PMEnv) (svc : Service) (u : String) (nf : List UploadFile) (fs0 : FS),
        (processMessage env svc u nf fs0).service.chatHistory
          = svc.chatHistory ++
            (if (processMessage env svc u nf fs0).response = "" then []
             else [(Role.human, u),
                   (Role.ai, (processMessage env svc u nf fs0).response)]))
    ∧ (∀ (turns : List Turn) (svc : Service),
        alternatesHA svc.chatHistory = true →
        alternatesHA (runTurns svc turns).chatHistory = true
        ∧ (runTurns svc turns).chatHistory.length
            = svc.chatHistory.length + 2 * countSuccess svc turns) :=
  ⟨fun env svc u nf fs0 => processMessage_hist env svc u nf fs0,
   fun turns svc h => runTurns_hist turns svc h⟩

/-- Witness for C2: one successful and one failed turn from a fresh
service give an alternating history of length 2·1. -/
theorem history_appended_iff_success_witness :
    alternatesHA (runTurns svcW [turnOk, turnErr]).chatHistory = true
    ∧ (runTurns svcW [turnOk, turnErr]).chatHistory.length
        = svcW.chatHistory.length + 2 * countSuccess svcW [turnOk, turnErr] :=
  history_appended_iff_success.2 [turnOk, turnErr] svcW rfl

/-- The user-visible error message rendered for a caught exception is never
empty. -/
theorem errorMsgText_ne_empty (e : String) : msgText (Msg.error e) ≠ "" := by
  unfold msgText
  intro hcontra
  have hlen := congrArg String.length hcontra
  rw [String.length_append] at hlen
  have h1 : 0 < ("處理您的問題時發生錯誤: " : String).length := by decide
  simp at hlen
  omega

/-- The caught error message is sent on the except path. -/
theorem exceptOutcome_mem_error (svc : Service) (e : String) (tools : List ToolDesc)
    (msgs : List Msg) (fs : FS) (log : List LogMsg) :
    Msg.error e ∈ (exceptOutcome svc e tools msgs fs log).msgs := by
  unfold exceptOutcome
  refine List.mem_filter.mpr ⟨List.mem_append_right _ ?_, by simp⟩
  simp

/-- The agent phase reports an exception only when the stream raised, and
then the turn yields an empty answer, an unchanged service, and the error
message was sent. -/
theorem runAgentPhase_exc (env : PMEnv) (svc : Service) (u : String)
    (tools : List ToolDesc) (msgs0 : List Msg) (fs : FS) (log0 : List LogMsg)
    (e : String)
    (h : (runAgentPhase env svc u tools msgs0 fs log0).exc = some e) :
    (runAgentPhase env svc u tools msgs0 fs log0).response = ""
    ∧ (runAgentPhase env svc u tools msgs0 fs log0).service = svc
    ∧ Msg.error e ∈ (runAgentPhase env svc u tools msgs0 fs log0).msgs := by
  unfold runAgentPhase at h ⊢
  cases hse : env.streamErr with
  | none =>
    rw [hse] at h
    by_cases hfa : (runEvents {} env.stream).finalAnswer = ""
    · by_cases hsr : (runEvents {} env.stream).streamed = ""
      · simp [hfa, hsr] at h
      · simp [hfa, hsr] at h
    · simp [hfa] at h
  | some e2 =>
    rw [hse] at h
    simp only [exceptOutcome] at h
    have he : e2 = e := by
      have := congrArg (fun o => o.getD "") h
      simpa using this
    rw [← he]
    exact ⟨rfl, rfl, exceptOutcome_mem_error svc e2 tools _ fs _⟩

/-- When a `process_message` turn reports no exception, the event stream
ended normally. -/
theorem processMessage_exc_none (env : PMEnv) (svc : Service) (u : String)
    (nf : List UploadFile) (fs0 : FS)
    (h : (processMessage env svc u nf fs0).exc = none) :
    env.streamErr = none := by
  by_contra hne
  cases hse : env.streamErr with
  | none => exact hne hse
  | some e2 =>
    unfold processMessage at h
    by_cases hnf : nf = []
    · simp only [hnf, if_true] at h
      unfold runAgentPhase exceptOutcome at h
      rw [hse] at h
      simp at h
    · simp only [hnf, if_false] at h
      cases hb : (createTempRetriever env.benv nf fs0).res with
      | error be =>
        simp only [hb, exceptOutcome] at h
        simp at h
      | ok r =>
        simp only [hb] at h
        unfold runAgentPhase exceptOutcome at h
        rw [hse] at h
        simp at h

/-- C3.  Every exception raised inside a `process_message` turn (ad-hoc
index building or the orchestration/event stream) is caught: the turn
returns an empty result, the service — in particular the conversation
history — is left unchanged and stays usable, and a non-empty user-visible
error message is shown instead of propagating the exception. -/
theorem exceptions_caught_and_shown (env : PMEnv) (svc : Service) (u : String)
    (nf : List UploadFile) (fs0 : FS) (e : String)
    (h : (processMessage env svc u nf fs0).exc = some e) :
    (processMessage env svc u nf fs0).response = ""
    ∧ (processMessage env svc u nf fs0).service = svc
    ∧ Msg.error e ∈ (processMessage env svc u nf fs0).msgs
    ∧ msgText (Msg.error e) ≠ "" := by
  unfold processMessage at h ⊢
  by_cases hnf : nf = []
  · simp only [hnf, if_true] at h ⊢
    obtain ⟨r1, r2, r3⟩ := runAgentPhase_exc env svc u _ [] fs0 [] e h
    exact ⟨r1, r2, r3, errorMsgText_ne_empty e⟩
  · simp only [hnf, if_false] at h ⊢
    cases hb : (createTempRetriever env.benv nf fs0).res with
    | error be =>
      simp only [hb] at h ⊢
      have he : buildErrText be = e := by
        simp only [exceptOutcome] at h
        have := congrArg (fun o => o.getD "") h
        simpa using this
      rw [← he]
      exact ⟨rfl, rfl, exceptOutcome_mem_error svc (buildErrText be) _ _ _ _,
        errorMsgText_ne_empty _⟩
    | ok r =>
      simp only [hb] at h ⊢
      obtain ⟨r1, r2, r3⟩ := runAgentPhase_exc env svc u _ _ _ _ e h
      exact ⟨r1, r2, r3, errorMsgText_ne_empty e⟩

/-- Witness for C3: a turn whose stream raises "boom". -/
theorem exceptions_caught_and_shown_witness :
    (processMessage pmEnvErr svcW "q" [] fsW).response = ""
    ∧ (processMessage pmEnvErr svcW "q" [] fsW).service = svcW
    ∧ Msg.error "boom" ∈ (processMessage pmEnvErr svcW "q" [] fsW).msgs
    ∧ msgText (Msg.error "boom") ≠ "" :=
  exceptions_caught_and_shown pmEnvErr svcW "q" [] fsW "boom" rfl

/-- When the stream ends normally but neither channel produced content, the
turn fails: empty answer, unchanged service, and the apology update of the
placeholder message. -/
theorem runAgentPhase_no_content (env : PMEnv) (svc : Service) (u : String)
    (tools : List ToolDesc) (msgs0 : List Msg) (fs : FS) (log0 : List LogMsg)
    (hse : env.streamErr = none)
    (hempty : classifierAnswer env.stream = "") :
    (runAgentPhase env svc u tools msgs0 fs log0).response = ""
    ∧ (runAgentPhase env svc u tools msgs0 fs log0).service = svc
    ∧ Msg.apology ∈ (runAgentPhase env svc u tools msgs0 fs log0).msgs := by
  have hfa : (runEvents {} env.stream).finalAnswer = "" := by
    by_contra hne
    have : classifierAnswer env.stream = (runEvents {} env.stream).finalAnswer := by
      unfold classifierAnswer
      simp [hne]
    rw [hempty] at this
    exact hne this.symm
  have hsr : (runEvents {} env.stream).streamed = "" := by
    have : classifierAnswer env.stream = (runEvents {} env.stream).streamed := by
      unfold classifierAnswer
      simp [hfa]
    rw [hempty] at this
    exact this.symm
  unfold runAgentPhase
  rw [hse]
  simp only [hfa, hsr, if_true]
  refine ⟨by simp, by simp, ?_⟩
  refine List.mem_map.mpr ⟨Msg.placeholder, ?_, by simp⟩
  simp

/-- C8.  For every turn in which the stream ends normally but neither the
finished channel nor the token channel produced content, the turn is a
failure: the returned result is empty, the conversation history is not
updated, and the non-empty fallback apology message is shown. -/
theorem no_content_apology (env : PMEnv) (svc : Service) (u : String)
    (nf : List UploadFile) (fs0 : FS)
    (hexc : (processMessage env svc u nf fs0).exc = none)
    (hempty : classifierAnswer env.stream = "") :
    (processMessage env svc u nf fs0).response = ""
    ∧ (processMessage env svc u nf fs0).service = svc
    ∧ Msg.apology ∈ (processMessage env svc u nf fs0).msgs
    ∧ msgText Msg.apology ≠ "" := by
  have hse := processMessage_exc_none env svc u nf fs0 hexc
  unfold processMessage at hexc ⊢
  by_cases hnf : nf = []
  · simp only [hnf, if_true] at hexc ⊢
    obtain ⟨r1, r2, r3⟩ := runAgentPhase_no_content env svc u _ [] fs0 [] hse hempty
    exact ⟨r1, r2, r3, by decide⟩
  · simp only [hnf, if_false] at hexc ⊢
    cases hb : (createTempRetriever env.benv nf fs0).res with
    | error be =>
      simp only [hb, exceptOutcome] at hexc
      simp at hexc
    | ok r =>
      simp only [hb] at hexc ⊢
      obtain ⟨r1, r2, r3⟩ := runAgentPhase_no_content env svc u _ _ _ _ hse hempty
      exact ⟨r1, r2, r3, by decide⟩

/-- Witness for C8: an empty stream produces the apology and no history
update. -/
theorem no_content_apology_witness :
    (processMessage pmEnvEmpty svcW "q" [] fsW).response = ""
    ∧ (processMessage pmEnvEmpty svcW "q" [] fsW).service = svcW
    ∧ Msg.apology ∈ (processMessage pmEnvEmpty svcW "q" [] fsW).msgs
    ∧ msgText Msg.apology ≠ "" :=
  no_content_apology pmEnvEmpty svcW "q" [] fsW rfl rfl

/-- C9 counterexample.  A preloaded-knowledge folder whose only matching
file fails to load yields zero usable documents; the resulting
`ValueError` is not caught by `create_chatbot_service` (which catches only
`FileNotFoundError`), so no service is created — contrary to the claim
that this case is non-fatal to the session. -/
theorem preloaded_empty_docs_fatal_counterexample :
    (createChatbotService ragEnvNoDocs).1 =
      Except.error (RagError.valueError
        ("無法從 " ++ ragDataFolder ++ " 中的檔案載入任何內容。"))
    ∧ ¬ ∃ svc : Service, (createChatbotService ragEnvNoDocs).1 = Except.ok svc := by
  have h : (createChatbotService ragEnvNoDocs).1 =
      Except.error (RagError.valueError
        ("無法從 " ++ ragDataFolder ++ " 中的檔案載入任何內容。")) := rfl
  refine ⟨h, ?_⟩
  rintro ⟨svc, hsvc⟩
  rw [h] at hsvc
  exact absurd hsvc (by simp)

/-- C9 amended.  Only the missing-file case is non-fatal: when no `.txt`
file matches, the service is still created without the preloaded tool and
a warning is logged; when matching files exist but yield zero usable
documents, the `ValueError` propagates out of `create_chatbot_service` and
service creation fails. -/
theorem preloaded_failure_modes :
    (∀ env : RagEnv, env.globTxt = [] →
        (createChatbotService env).1 = Except.ok ⟨none, []⟩
        ∧ LogMsg.warnNoKnowledgeBase
            ("在資料夾 \x27" ++ ragDataFolder ++ "\x27 中找不到任何 .txt 檔案。"
              ++ " - 將不會載入預設知識庫。") ∈ (createChatbotService env).2)
    ∧ (∀ env : RagEnv, env.globTxt ≠ [] → (ragLoadLoop env env.globTxt).1 = [] →
        (createChatbotService env).1 =
          Except.error (RagError.valueError
            ("無法從 " ++ ragDataFolder ++ " 中的檔案載入任何內容。"))) := by
  constructor
  · intro env h
    simp [createChatbotService, createRagRetriever, h]
  · intro env h1 h2
    rcases hll : ragLoadLoop env env.globTxt with ⟨docs, lg⟩
    rw [hll] at h2
    simp only [] at h2
    simp [createChatbotService, createRagRetriever, h1, hll, h2]

/-- Witness for the amended C9 theorem: a glob with no matches still yields
a service; a glob whose files all fail to load propagates the error. -/
theorem preloaded_failure_modes_witness :
    (createChatbotService ragEnvNoFiles).1 = Except.ok ⟨none, []⟩
    ∧ (createChatbotService ragEnvNoDocs).1 =
        Except.error (RagError.valueError
          ("無法從 " ++ ragDataFolder ++ " 中的檔案載入任何內容。")) :=
  ⟨(preloaded_failure_modes.1 ragEnvNoFiles rfl).1,
   preloaded_failure_modes.2 ragEnvNoDocs (by decide) rfl⟩
